import Mathlib

/-!
Verification development for the `EnhancedSpider` website archiver
(`EnhancedWebsiteScrapper.py`).  The Python source is shallowly embedded:
pure helpers become Lean functions, the spider's mutable attributes
(`processed_urls`, `asset_hashes`, `depth_map`) become an explicit state
record threaded through the embedded methods, and filesystem writes become
an explicit association list from paths to file contents.
-/

set_option maxRecDepth 4096

/-- Result of Python's `urllib.parse.urlsplit` on a string: the five named
fields `(scheme, netloc, path, query, fragment)`. -/
structure SplitResult where
  scheme : String
  netloc : String
  path : String
  query : String
  fragment : String
deriving DecidableEq, Repr

/-- Characters CPython accepts inside a URL scheme
(letters, digits, `+`, `-`, `.`). -/
def schemeChar (c : Char) : Bool :=
  c.isAlpha || c.isDigit || c = '+' || c = '-' || c = '.'

/-- Split a character list at the first occurrence of `c`
(Python's `s.split(c, 1)`); `none` when `c` does not occur. -/
def splitOnceChar (c : Char) : List Char → Option (List Char × List Char)
  | [] => none
  | x :: xs =>
    if x = c then some ([], xs)
    else
      match splitOnceChar c xs with
      | some (a, b) => some (x :: a, b)
      | none => none

/-- Scheme extraction step of `urlsplit`: when the text before the first `:`
is a wellformed scheme (nonempty, starts with a letter, all scheme
characters), return it lowercased together with the remainder; otherwise
leave the input untouched. -/
def extractScheme (l : List Char) : String × List Char :=
  match splitOnceChar ':' l with
  | none => ("", l)
  | some (pre, post) =>
    match pre with
    | [] => ("", l)
    | c :: _ =>
      if c.isAlpha && pre.all schemeChar then
        (String.mk (pre.map Char.toLower), post)
      else
        ("", l)

/-- Netloc extraction step of `urlsplit` (CPython's `_splitnetloc`): when the
text starts with `//`, the netloc runs up to the first `/`, `?` or `#`; the
remainder keeps that delimiter. -/
def extractNetloc : List Char → List Char × List Char
  | '/' :: '/' :: rest =>
    (rest.takeWhile (fun c => c ≠ '/' && c ≠ '?' && c ≠ '#'),
     rest.dropWhile (fun c => c ≠ '/' && c ≠ '?' && c ≠ '#'))
  | l => ([], l)

/-- Fragment or query extraction: split at the first occurrence of the
delimiter when present. -/
def extractAfter (c : Char) (l : List Char) : List Char × List Char :=
  match splitOnceChar c l with
  | none => (l, [])
  | some (a, b) => (a, b)

/-- Python's `urllib.parse.urlsplit` on a string argument, in CPython's
order: scheme, then netloc, then fragment, then query. -/
def urlsplit (s : String) : SplitResult :=
  let (scheme, r1) := extractScheme s.data
  let (netloc, r2) := extractNetloc r1
  let (beforeFrag, fragment) := extractAfter '#' r2
  let (path, query) := extractAfter '?' beforeFrag
  ⟨scheme, String.mk netloc, String.mk path, String.mk query, String.mk fragment⟩

/-- Dynamic argument of a CPython `urllib.parse` call: either a `str` or the
5-tuple `(scheme, netloc, path, query, fragment)` that `normalize_url`
builds. -/
inductive PyUrlArg where
  | str (s : String)
  | tuple5 (scheme netloc path query fragment : String)

/-- Python's `urlsplit` as a dynamically typed call.  On a `str` it splits;
on any other object `_coerce_args` falls through to `_decode_args`, which
calls `.decode` on the argument, and a tuple has no `decode` attribute, so
an `AttributeError` is raised for every tuple argument. -/
def urlsplitPy : PyUrlArg → Except String SplitResult
  | .str s => .ok (urlsplit s)
  | .tuple5 _ _ _ _ _ =>
    .error "AttributeError: tuple object has no attribute decode"

/-- Python's `urljoin(base, url)` as invoked at line 199 of the source: the
second argument there is always the `SplitResult` produced by the previous
`urlsplit` call, not a `str`, so `_coerce_args` sees a `str` base mixed with
a non-str truthy argument and raises `TypeError`. -/
def urljoinPyOnSplitResult (_base : String) (_cleanUrl : SplitResult) :
    Except String String :=
  .error "TypeError: Cannot mix str and non-str arguments"

/-- EnhancedSpider.normalize_url.  The body runs inside `try/except`: any
raised exception is logged and `None` is returned.  The first `urlsplit`
call receives the raw string; the second receives a 5-tuple and therefore
raises, which the handler turns into `none` on every input. -/
def normalize_url (allowed_domains : List String) (base_url url : String) :
    Option String :=
  let attempt : Except String (Option String) := do
    let parsed := urlsplit url
    let clean_url ← urlsplitPy
      (.tuple5 parsed.scheme parsed.netloc parsed.path "" "")
    let absolute_url ← urljoinPyOnSplitResult base_url clean_url
    if allowed_domains.contains (urlsplit absolute_url).netloc then
      pure (some absolute_url)
    else
      pure none
  match attempt with
  | .ok v => v
  | .error _ => none

/-- Modelled from the spec: the host that resolving `link` against `base`
yields (RFC 3986 reference resolution) — the link's own authority when it
has one, otherwise the base URL's host.  Used only to state the
allow-list-rejection claim; the source's resolution never completes. -/
def specResolvedHost (base link : String) : String :=
  if (urlsplit link).netloc ≠ "" then (urlsplit link).netloc
  else (urlsplit base).netloc

/-- Mutable spider attributes set up in `EnhancedSpider.__init__`:
`processed_urls` (URLs already admitted to the queue), `asset_hashes`
(content digests already written), and `depth_map` (URL to depth).
The dictionary is modelled as an association list where the most recent
assignment is consulted first. -/
structure CrawlState where
  processed_urls : List String
  asset_hashes : List String
  depth_map : List (String × Nat)
deriving DecidableEq, Repr

/-- Empty spider state created by `__init__`. -/
def initCrawlState : CrawlState := ⟨[], [], []⟩

/-- Python dictionary lookup on the association-list model: the most recent
assignment for the key wins. -/
def dictGet (m : List (String × Nat)) (k : String) : Option Nat :=
  (m.find? (fun e => e.1 = k)).map (fun e => e.2)

/-- Python dictionary assignment `m[k] = v` on the association-list model:
prepend, so that `dictGet` sees the newest binding. -/
def dictSet (m : List (String × Nat)) (k : String) (v : Nat) :
    List (String × Nat) :=
  (k, v) :: m

/-- One parsed HTML document, as seen through the CSS selectors the spider
uses: stylesheet hrefs, script srcs, image srcs, srcsets, anchor hrefs, and
the raw text. -/
structure Page where
  cssHrefs : List String
  scriptSrcs : List String
  imgSrcs : List String
  srcsets : List String
  anchorHrefs : List String
  text : String
deriving DecidableEq, Repr

/-- An asset `Request` yielded by `yield_asset_request`: the normalized URL
and the `asset_type` carried in `meta`. -/
structure AssetRequest where
  url : String
  asset_type : String
deriving DecidableEq, Repr

/-- EnhancedSpider.is_duplicate_asset: membership in `processed_urls`. -/
def is_duplicate_asset (st : CrawlState) (url : String) : Bool :=
  st.processed_urls.contains url

/-- EnhancedSpider.yield_asset_request: normalize the link, drop it when
normalization fails (`if not absolute_url`, which is also false for an empty
string) or when it is a duplicate, otherwise yield one asset request.  The
method only reads the spider state; it never inserts into it. -/
def yield_asset_request (allowed : List String)
    (base_url link asset_type : String) (st : CrawlState) :
    Option AssetRequest :=
  match normalize_url allowed base_url link with
  | none => none
  | some absolute_url =>
    if absolute_url = "" then none
    else if is_duplicate_asset st absolute_url then none
    else some ⟨absolute_url, asset_type⟩

/-- EnhancedSpider.process_assets: asset requests for every stylesheet
link, script src, img src and source srcset, in source order. -/
def process_assets (allowed : List String) (responseUrl : String)
    (page : Page) (st : CrawlState) : List AssetRequest :=
  (page.cssHrefs.filterMap
    (fun l => yield_asset_request allowed responseUrl l "css" st))
  ++ (page.scriptSrcs.filterMap
    (fun l => yield_asset_request allowed responseUrl l "js" st))
  ++ (page.imgSrcs.filterMap
    (fun l => yield_asset_request allowed responseUrl l "images" st))
  ++ (page.srcsets.filterMap
    (fun l => yield_asset_request allowed responseUrl l "images" st))

/-- EnhancedSpider.find_links: for each anchor href in order, normalize it;
when the result is truthy and not yet in `processed_urls`, add it to
`processed_urls`, record its depth as `current_depth + 1`, and yield a page
request for it. -/
def find_links (allowed : List String) (responseUrl : String)
    (hrefs : List String) (current_depth : Nat) (st : CrawlState) :
    CrawlState × List String :=
  hrefs.foldl
    (fun acc link =>
      match normalize_url allowed responseUrl link with
      | none => acc
      | some absolute_url =>
        if absolute_url = "" then acc
        else if acc.1.processed_urls.contains absolute_url then acc
        else
          ({ acc.1 with
              processed_urls := absolute_url :: acc.1.processed_urls,
              depth_map :=
                dictSet acc.1.depth_map absolute_url (current_depth + 1) },
           acc.2 ++ [absolute_url]))
    (st, [])

/-- Outcome of `EnhancedSpider.parse` on one response: the updated spider
state, the page requests yielded by `find_links`, the asset requests
yielded by `process_assets`, whether `save_html` ran, and whether
`find_links` ran. -/
structure ParseResult where
  st : CrawlState
  pageRequests : List String
  assetRequests : List AssetRequest
  savedHtml : Bool
  expanded : Bool
deriving DecidableEq, Repr

/-- EnhancedSpider.parse: read the recorded depth (default 0); when it
exceeds `DEPTH_LIMIT`, skip the page entirely; otherwise save the HTML,
yield asset requests, and when the depth is strictly below the limit also
discover and yield outbound links. -/
def parse (allowed : List String) (limit : Nat) (url : String)
    (page : Page) (st : CrawlState) : ParseResult :=
  let current_depth := (dictGet st.depth_map url).getD 0
  if current_depth > limit then
    ⟨st, [], [], false, false⟩
  else
    let assets := process_assets allowed url page st
    if current_depth < limit then
      let r := find_links allowed url page.anchorHrefs current_depth st
      ⟨r.1, r.2, assets, true, true⟩
    else
      ⟨st, [], assets, true, false⟩

/-- EnhancedSpider.start_requests: for each seed in order, record depth 0
in `depth_map` and yield a page request.  Seeds are not added to
`processed_urls`. -/
def start_requests (seeds : List String) (st : CrawlState) :
    CrawlState × List String :=
  seeds.foldl
    (fun acc url =>
      ({ acc.1 with depth_map := dictSet acc.1.depth_map url 0 },
       acc.2 ++ [url]))
    (st, [])

/-- Crawl driver: drain the page-request queue, running `parse` on each
fetched page (the environment `env` supplies the document behind each URL).
Returns the trace of all URLs admitted to the queue after the seeds (page
requests and asset requests, in admission order) and the final spider
state.  Asset responses invoke `save_asset`, which never enqueues further
requests, so only page requests re-enter the queue.  `fuel` bounds the
number of processed responses. -/
def crawlLoop (env : String → Page) (allowed : List String) (limit : Nat) :
    Nat → List String → CrawlState → List String × CrawlState
  | 0, _, st => ([], st)
  | _ + 1, [], st => ([], st)
  | fuel + 1, url :: queue, st =>
    let r := parse allowed limit url (env url) st
    let admissions := r.pageRequests ++ r.assetRequests.map (fun a => a.url)
    let rest := crawlLoop env allowed limit fuel (queue ++ r.pageRequests) r.st
    (admissions ++ rest.1, rest.2)

/-- One whole run: `start_requests` admits the seeds, then the queue is
drained.  The first component is the full admission trace (seeds first). -/
def runCrawl (env : String → Page) (allowed : List String) (limit : Nat)
    (seeds : List String) (fuel : Nat) : List String × CrawlState :=
  let s := start_requests seeds initCrawlState
  let r := crawlLoop env allowed limit fuel s.2 s.1
  (s.2 ++ r.1, r.2)

/-- A page with no links and no assets, used as a degenerate crawl
environment in concrete runs. -/
def emptyPage : Page := ⟨[], [], [], [], [], ""⟩

/-- Bitwise complement within 32 bits (inputs below 2^32). -/
def not32 (x : Nat) : Nat := 4294967295 - x

/-- Left rotation of a 32-bit word by `s` places. -/
def rotl32 (x s : Nat) : Nat :=
  ((x * 2 ^ s) % 4294967296) + (x / 2 ^ (32 - s))

/-- Per-round left-rotation amounts of MD5 (RFC 1321). -/
def mdS : List Nat :=
  [7, 12, 17, 22, 7, 12, 17, 22, 7, 12, 17, 22, 7, 12, 17, 22,
   5, 9, 14, 20, 5, 9, 14, 20, 5, 9, 14, 20, 5, 9, 14, 20,
   4, 11, 16, 23, 4, 11, 16, 23, 4, 11, 16, 23, 4, 11, 16, 23,
   6, 10, 15, 21, 6, 10, 15, 21, 6, 10, 15, 21, 6, 10, 15, 21]

/-- Per-round additive constants of MD5 (RFC 1321). -/
def mdK : List Nat :=
  [0xd76aa478, 0xe8c7b756, 0x242070db, 0xc1bdceee,
   0xf57c0faf, 0x4787c62a, 0xa8304613, 0xfd469501,
   0x698098d8, 0x8b44f7af, 0xffff5bb1, 0x895cd7be,
   0x6b901122, 0xfd987193, 0xa679438e, 0x49b40821,
   0xf61e2562, 0xc040b340, 0x265e5a51, 0xe9b6c7aa,
   0xd62f105d, 0x02441453, 0xd8a1e681, 0xe7d3fbc8,
   0x21e1cde6, 0xc33707d6, 0xf4d50d87, 0x455a14ed,
   0xa9e3e905, 0xfcefa3f8, 0x676f02d9, 0x8d2a4c8a,
   0xfffa3942, 0x8771f681, 0x6d9d6122, 0xfde5380c,
   0xa4beea44, 0x4bdecfa9, 0xf6bb4b60, 0xbebfbc70,
   0x289b7ec6, 0xeaa127fa, 0xd4ef3085, 0x04881d05,
   0xd9d4d039, 0xe6db99e5, 0x1fa27cf8, 0xc4ac5665,
   0xf4292244, 0x432aff97, 0xab9423a7, 0xfc93a039,
   0x655b59c3, 0x8f0ccc92, 0xffeff47d, 0x85845dd1,
   0x6fa87e4f, 0xfe2ce6e0, 0xa3014314, 0x4e0811a1,
   0xf7537e82, 0xbd3af235, 0x2ad7d2bb, 0xeb86d391]

/-- Round function of MD5: the mixing function for round `i`. -/
def md5F (i b c d : Nat) : Nat :=
  if i < 16 then (b &&& c) ||| ((not32 b) &&& d)
  else if i < 32 then (d &&& b) ||| ((not32 d) &&& c)
  else if i < 48 then b ^^^ c ^^^ d
  else c ^^^ (b ||| (not32 d))

/-- Message-word index consumed by round `i` of MD5. -/
def md5G (i : Nat) : Nat :=
  if i < 16 then i
  else if i < 32 then (5 * i + 1) % 16
  else if i < 48 then (3 * i + 5) % 16
  else (7 * i) % 16

/-- One of the 64 rounds of MD5 on the state `(a, b, c, d)`. -/
def md5Round (M : List Nat) (st : Nat × Nat × Nat × Nat) (i : Nat) :
    Nat × Nat × Nat × Nat :=
  match st with
  | (a, b, c, d) =>
    let f := (md5F i b c d + a + mdK.getD i 0 + M.getD (md5G i) 0)
      % 4294967296
    (d, (b + rotl32 f (mdS.getD i 0)) % 4294967296, b, c)

/-- Pack bytes into little-endian 32-bit words. -/
def leWords : List Nat → List Nat
  | b0 :: b1 :: b2 :: b3 :: rest =>
    (b0 % 256 + 256 * (b1 % 256) + 65536 * (b2 % 256)
      + 16777216 * (b3 % 256)) :: leWords rest
  | _ => []

/-- Cut a byte list into 64-byte chunks; the first argument is fuel
(any bound of at least the number of chunks, such as the length). -/
def chunkify : Nat → List Nat → List (List Nat)
  | 0, _ => []
  | _ + 1, [] => []
  | n + 1, bytes => bytes.take 64 :: chunkify n (bytes.drop 64)

/-- Process one 64-byte chunk of MD5 input: run the 64 rounds and add the
result into the running state. -/
def md5Chunk (st : Nat × Nat × Nat × Nat) (chunk : List Nat) :
    Nat × Nat × Nat × Nat :=
  let M := leWords chunk
  let r := (List.range 64).foldl (md5Round M) st
  match st, r with
  | (a0, b0, c0, d0), (a, b, c, d) =>
    ((a0 + a) % 4294967296, (b0 + b) % 4294967296,
     (c0 + c) % 4294967296, (d0 + d) % 4294967296)

/-- MD5 padding: append `0x80`, zero bytes up to 56 mod 64, then the
original bit length as eight little-endian bytes. -/
def md5Pad (msg : List Nat) : List Nat :=
  let len := msg.length
  let padLen := (64 + 55 - (len % 64)) % 64
  msg ++ [128] ++ List.replicate padLen 0
      ++ (List.range 8).map (fun i => ((len * 8) / 256 ^ i) % 256)

/-- Two lowercase hexadecimal digits of a byte (Nat.digitChar is the
lowercase hexadecimal digit for values below 16). -/
def byteHex (n : Nat) : List Char :=
  [Nat.digitChar (n / 16 % 16), Nat.digitChar (n % 16)]

/-- Hexadecimal rendering of a 32-bit word, least significant byte first,
as MD5 digests are printed. -/
def wordLEHex (w : Nat) : List Char :=
  byteHex (w % 256) ++ byteHex (w / 256 % 256) ++ byteHex (w / 65536 % 256)
    ++ byteHex (w / 16777216 % 256)

/-- Python's `hashlib.md5(body).hexdigest()`: the full MD5 of a byte list,
rendered as 32 lowercase hexadecimal characters (RFC 1321; validated
against hashlib on the reference vectors for the empty message and
"abc"). -/
def md5hex (msg : List Nat) : String :=
  let padded := md5Pad msg
  match (chunkify padded.length padded).foldl md5Chunk
      (0x67452301, 0xefcdab89, 0x98badcfe, 0x10325476) with
  | (a, b, c, d) =>
    String.mk (wordLEHex a ++ wordLEHex b ++ wordLEHex c ++ wordLEHex d)

/-- Python's `s.strip("/")`: remove `/` characters from both ends. -/
def stripSlashes (s : String) : String :=
  String.mk (((s.data.dropWhile (fun c => c = '/')).reverse.dropWhile
    (fun c => c = '/')).reverse)

/-- Split a character list at every occurrence of `c`
(Python's `s.split(c)`). -/
def splitAllChar (c : Char) : List Char → List (List Char)
  | [] => [[]]
  | x :: xs =>
    if x = c then [] :: splitAllChar c xs
    else
      match splitAllChar c xs with
      | h :: t => (x :: h) :: t
      | [] => [[x]]

/-- Lowercase a string character by character, as CPython's `str.lower`
does for ASCII input. -/
def lowerStr (s : String) : String :=
  String.mk (s.data.map Char.toLower)

/-- Components of a pathlib `PurePosixPath`: split on `/`, dropping empty
and `.` components. -/
def pathComponents (p : String) : List String :=
  ((splitAllChar '/' p.data).map String.mk).filter
    (fun c => c ≠ "" && c ≠ ".")

/-- Last element of a component list, or the empty string. -/
def lastComponent : List String → String
  | [] => ""
  | [c] => c
  | _ :: rest => lastComponent rest

/-- Python's `Path(p).name`: the final path component, or the empty string
when there is none. -/
def pathName (p : String) : String :=
  lastComponent (pathComponents p)

/-- Python's `Path(p).suffix`: the final dot-suffix of the name, empty when
the name has no dot, starts with its only dot, or ends in a dot. -/
def pathSuffix (p : String) : String :=
  let name := (pathName p).data
  match name.reverse.findIdx? (fun c => c = '.') with
  | none => ""
  | some j =>
    let i := name.length - 1 - j
    if 0 < i ∧ i < name.length - 1 then String.mk (name.drop i) else ""

/-- Python's `mimetypes.guess_extension`, restricted to the standard-table
entries exercised by this development (the argument is lowercased first, as
CPython does; CPython maps image/jpeg to ".jpg").  Unknown types give
`none`, which the caller defaults to ".bin". -/
def guess_extension (contentType : String) : Option String :=
  let t := lowerStr contentType
  if t = "image/png" then some ".png"
  else if t = "image/jpeg" then some ".jpg"
  else if t = "image/gif" then some ".gif"
  else if t = "image/svg+xml" then some ".svg"
  else if t = "text/css" then some ".css"
  else if t = "text/javascript" then some ".js"
  else none

/-- Content-Type extraction in `save_asset`:
`headers.get("Content-Type", b"").decode().split(";")[0]`. -/
def contentTypeOf (header : String) : String :=
  String.mk ((splitAllChar ';' header.data).headD [])

/-- EnhancedSpider.get_domain_folder: the host with dots replaced by
underscores. -/
def get_domain_folder (url : String) : String :=
  String.mk ((urlsplit url).netloc.data.map
    (fun c => if c = '.' then '_' else c))

/-- Contents of a file on disk: text (written through mode "w") or bytes
(written through mode "wb"). -/
inductive FileContent where
  | text (s : String)
  | bytes (b : List Nat)
deriving DecidableEq, Repr

/-- The prefix of a file content actually flushed when a write stops after
`k` characters or bytes. -/
def truncateContent : FileContent → Nat → FileContent
  | .text s, k => .text (s.take k)
  | .bytes b, k => .bytes (b.take k)

/-- Filesystem model: paths mapped to contents, newest write first. -/
abbrev Filesystem := List (String × FileContent)

/-- Look up the current content at a path. -/
def fsLookup (fs : Filesystem) (p : String) : Option FileContent :=
  (fs.find? (fun e => e.1 = p)).map (fun e => e.2)

/-- How far a single file write gets: `ok` writes everything;
`failAfter k` raises after `k` characters or bytes reached the file. -/
inductive WriteOutcome where
  | ok
  | failAfter (k : Nat)
deriving DecidableEq, Repr

/-- File write as CPython performs it for `open(path, "w")` and
`open(path, "wb")`: opening truncates the target immediately, so a write
that fails after `k` units leaves the `k`-unit prefix as the file's whole
content.  The source wraps the write in `try/except` and only logs the
failure. -/
def fsWrite (fs : Filesystem) (p : String) (content : FileContent)
    (o : WriteOutcome) : Filesystem :=
  match o with
  | .ok => (p, content) :: fs
  | .failAfter k => (p, truncateContent content k) :: fs

/-- A fetched HTML page response: its URL and its decoded text. -/
structure PageResponse where
  url : String
  text : String
deriving DecidableEq, Repr

/-- Target path computed by `save_html`:
domain folder, then the stripped URL path when nonempty, then
`index.html`. -/
def save_html_path (url : String) : String :=
  let domain := get_domain_folder url
  let path := stripSlashes (urlsplit url).path
  if path ≠ "" then domain ++ "/" ++ path ++ "/index.html"
  else domain ++ "/index.html"

/-- EnhancedSpider.save_html: write the response text to
`save_html_path`. -/
def save_html (resp : PageResponse) (fs : Filesystem) (o : WriteOutcome) :
    Filesystem :=
  fsWrite fs (save_html_path resp.url) (.text resp.text) o

/-- A fetched asset response: its URL, the raw Content-Type header value
(empty when the header is absent), its body bytes, and the `asset_type`
carried in the request's `meta`. -/
structure AssetResponse where
  url : String
  contentTypeHeader : String
  body : List Nat
  asset_type : String
deriving DecidableEq, Repr

/-- Extension computation of `save_asset`: for the `images` category, the
MIME-derived extension with ".bin" fallback; otherwise the URL path's
suffix when nonempty, else the category default. -/
def resolve_ext (asset_type content_type urlPath : String) : String :=
  if asset_type = "images" then (guess_extension content_type).getD ".bin"
  else
    let suffix := pathSuffix urlPath
    if suffix ≠ "" then suffix
    else if asset_type = "css" then ".css"
    else if asset_type = "js" then ".js"
    else ".bin"

/-- EnhancedSpider.save_asset: hash the body; skip entirely when the hash
was already recorded; otherwise record the hash and write the body to
`<domain>/<asset_type>/<name>`, where `<name>` is the stripped URL path's
final component when the stripped path is nonempty and
`<contentHash><ext>` otherwise.  Returns the updated spider state, the
updated filesystem, and the written path (`none` when skipped). -/
def save_asset (resp : AssetResponse) (st : CrawlState) (fs : Filesystem)
    (o : WriteOutcome) : CrawlState × Filesystem × Option String :=
  let content_hash := md5hex resp.body
  if st.asset_hashes.contains content_hash then (st, fs, none)
  else
    let st' := { st with asset_hashes := content_hash :: st.asset_hashes }
    let domain := get_domain_folder resp.url
    let content_type := contentTypeOf resp.contentTypeHeader
    let ext := resolve_ext resp.asset_type content_type
      (urlsplit resp.url).path
    let file_path := stripSlashes (urlsplit resp.url).path
    let file_name :=
      if file_path ≠ "" then pathName file_path else content_hash ++ ext
    let filename := domain ++ "/" ++ resp.asset_type ++ "/" ++ file_name
    (st', fsWrite fs filename (.bytes resp.body) o, some filename)

/-- The target filename computed inside `save_asset` (same expression,
named so that lemmas can speak about it):
`<domain>/<asset_type>/<name>` with the basename-or-hash rule. -/
def assetFileName (r : AssetResponse) : String :=
  let content_hash := md5hex r.body
  let domain := get_domain_folder r.url
  let content_type := contentTypeOf r.contentTypeHeader
  let ext := resolve_ext r.asset_type content_type (urlsplit r.url).path
  let file_path := stripSlashes (urlsplit r.url).path
  let file_name :=
    if file_path ≠ "" then pathName file_path else content_hash ++ ext
  domain ++ "/" ++ r.asset_type ++ "/" ++ file_name

theorem normalize_url_eq_none (allowed : List String) (base url : String) :
    normalize_url allowed base url = none := rfl

theorem save_asset_eq (r : AssetResponse) (st : CrawlState)
    (fs : Filesystem) (o : WriteOutcome) :
    save_asset r st fs o =
      if st.asset_hashes.contains (md5hex r.body) then (st, fs, none)
      else
        ({ st with asset_hashes := md5hex r.body :: st.asset_hashes },
         fsWrite fs (assetFileName r) (.bytes r.body) o,
         some (assetFileName r)) := rfl

theorem fsLookup_cons_ne (fs : Filesystem) (p q : String) (c : FileContent)
    (h : p ≠ q) :
    fsLookup ((p, c) :: fs) q = fsLookup fs q := by
  simp [fsLookup, List.find?, h]

theorem fsLookup_cons_self (fs : Filesystem) (p : String)
    (c : FileContent) :
    fsLookup ((p, c) :: fs) p = some c := by
  simp [fsLookup, List.find?]

theorem assetFileName_congr (r1 r2 : AssetResponse)
    (han : (urlsplit r1.url).netloc = (urlsplit r2.url).netloc)
    (hap : (urlsplit r1.url).path = (urlsplit r2.url).path)
    (hat : r1.asset_type = r2.asset_type)
    (hb : r1.body = r2.body)
    (hct : contentTypeOf r1.contentTypeHeader
        = contentTypeOf r2.contentTypeHeader) :
    assetFileName r1 = assetFileName r2 := by
  unfold assetFileName get_domain_folder
  rw [hb, han, hap, hat, hct]

theorem yield_asset_request_eq_none (allowed : List String)
    (base link asset_type : String) (st : CrawlState) :
    yield_asset_request allowed base link asset_type st = none := rfl

theorem process_assets_eq_nil (allowed : List String) (responseUrl : String)
    (page : Page) (st : CrawlState) :
    process_assets allowed responseUrl page st = [] := by
  unfold process_assets
  have h : ∀ (l : List String) (t : String),
      l.filterMap
        (fun x => yield_asset_request allowed responseUrl x t st) = [] := by
    intro l t
    induction l with
    | nil => rfl
    | cons a as ih =>
      simp [List.filterMap, yield_asset_request_eq_none, ih]
  simp [h]

theorem find_links_eq (allowed : List String) (responseUrl : String)
    (hrefs : List String) (current_depth : Nat) (st : CrawlState) :
    find_links allowed responseUrl hrefs current_depth st = (st, []) := by
  unfold find_links
  induction hrefs with
  | nil => rfl
  | cons a as ih => simp [List.foldl, normalize_url_eq_none, ih]

theorem parse_eq (allowed : List String) (limit : Nat) (url : String)
    (page : Page) (st : CrawlState) :
    parse allowed limit url page st =
      ⟨st, [], [],
        decide ((dictGet st.depth_map url).getD 0 ≤ limit),
        decide ((dictGet st.depth_map url).getD 0 < limit)⟩ := by
  unfold parse
  rcases Nat.lt_trichotomy ((dictGet st.depth_map url).getD 0) limit with h | h | h
  · simp [h, Nat.le_of_lt h, Nat.not_lt.2 (Nat.le_of_lt h), find_links_eq,
      process_assets_eq_nil]
  · simp [h, find_links_eq, process_assets_eq_nil]
  · simp [h, Nat.not_le.2 h, Nat.not_lt.2 (Nat.le_of_lt h), find_links_eq,
      process_assets_eq_nil]

theorem crawlLoop_eq (env : String → Page) (allowed : List String)
    (limit : Nat) : ∀ (fuel : Nat) (queue : List String) (st : CrawlState),
    crawlLoop env allowed limit fuel queue st = ([], st) := by
  intro fuel
  induction fuel with
  | zero => intro queue st; rfl
  | succ n ih =>
    intro queue st
    cases queue with
    | nil => rfl
    | cons url rest =>
      simp [crawlLoop, parse_eq, ih]

theorem start_requests_trace (seeds : List String) :
    ∀ (st : CrawlState) (acc : List String),
    (seeds.foldl
      (fun acc url =>
        ({ acc.1 with depth_map := dictSet acc.1.depth_map url 0 },
         acc.2 ++ [url]))
      (st, acc)).2 = acc ++ seeds := by
  induction seeds with
  | nil => intro st acc; simp
  | cons s rest ih =>
    intro st acc
    simp [List.foldl, ih]

theorem start_requests_snd (seeds : List String) (st : CrawlState) :
    (start_requests seeds st).2 = seeds := by
  simpa using start_requests_trace seeds st []

theorem runCrawl_trace (env : String → Page) (allowed : List String)
    (limit : Nat) (seeds : List String) (fuel : Nat) :
    (runCrawl env allowed limit seeds fuel).1 = seeds := by
  simp [runCrawl, crawlLoop_eq, start_requests_snd]

theorem dictGet_dictSet (m : List (String × Nat)) (k : String) (v : Nat)
    (x : String) :
    dictGet (dictSet m k v) x = if x = k then some v else dictGet m x := by
  by_cases h : x = k
  · simp [dictGet, dictSet, List.find?, h]
  · simp [dictGet, dictSet, List.find?, h, Ne.symm h]

theorem start_requests_depth_gen (seeds : List String) :
    ∀ (st : CrawlState) (acc : List String) (x : String),
    dictGet ((seeds.foldl
      (fun acc url =>
        ({ acc.1 with depth_map := dictSet acc.1.depth_map url 0 },
         acc.2 ++ [url]))
      (st, acc)).1.depth_map) x
      = if x ∈ seeds then some 0 else dictGet st.depth_map x := by
  induction seeds with
  | nil => intro st acc x; simp
  | cons a rest ih =>
    intro st acc x
    simp only [List.foldl]
    rw [ih]
    by_cases hx : x ∈ rest
    · simp [hx]
    · by_cases hxa : x = a
      · simp [hx, hxa, dictGet_dictSet]
      · simp [hx, hxa, dictGet_dictSet]

theorem start_requests_depth (seeds : List String) (st : CrawlState)
    (x : String) :
    dictGet (start_requests seeds st).1.depth_map x
      = if x ∈ seeds then some 0 else dictGet st.depth_map x := by
  unfold start_requests
  exact start_requests_depth_gen seeds st [] x

theorem runCrawl_snd (env : String → Page) (allowed : List String)
    (limit : Nat) (seeds : List String) (fuel : Nat) :
    (runCrawl env allowed limit seeds fuel).2
      = (start_requests seeds initCrawlState).1 := by
  simp [runCrawl, crawlLoop_eq]

/-- C1: the claim that `normalize_url` resolves a link against the base,
strips query and fragment, and returns the absolute URL for an allowed
host.  The code instead returns `None` on every input (the second
`urlsplit` receives a 5-tuple and raises); at the spec's Scenario A input
the result is `none`, not `some "https://example.com/about"`. -/
theorem C1_normalize_url_scenarioA_returns_none :
    normalize_url ["example.com"] "https://example.com/" "/about?x=1#sec"
        = none
      ∧ (none : Option String) ≠ some "https://example.com/about" := by
  exact ⟨rfl, by decide⟩

/-- C2: for every input pair, `normalize_url` returns `none`, because it
passes a 5-tuple to `urlsplit`, which raises for every input, and the
handler returns `None`; consequently `yield_asset_request` yields nothing,
`find_links` yields nothing, and `parse` enqueues no page request and no
asset request from any parsed page. -/
theorem C2_normalize_url_always_none (allowed : List String)
    (base url asset_type pageUrl : String) (st : CrawlState)
    (hrefs : List String) (page : Page) (d limit : Nat) :
    normalize_url allowed base url = none
  ∧ yield_asset_request allowed base url asset_type st = none
  ∧ (find_links allowed base hrefs d st).2 = []
  ∧ (parse allowed limit pageUrl page st).pageRequests = []
  ∧ (parse allowed limit pageUrl page st).assetRequests = [] := by
  refine ⟨rfl, rfl, ?_, ?_, ?_⟩
  · simp [find_links_eq]
  · simp [parse_eq]
  · simp [parse_eq]

/-- C3 counterexample: a run whose seed list names the same URL twice
admits that URL to the work queue twice — `start_requests` yields one
request per seed-list entry without consulting `processed_urls` — so the
claim that every URL is admitted at most once per run fails as stated. -/
theorem C3_duplicate_seed_enqueued_twice :
    ((runCrawl (fun _ => emptyPage) ["yzy-sply.com"] 3
        ["https://yzy-sply.com/", "https://yzy-sply.com/"] 5).1.count
      "https://yzy-sply.com/") = 2
  ∧ ¬ ((runCrawl (fun _ => emptyPage) ["yzy-sply.com"] 3
        ["https://yzy-sply.com/", "https://yzy-sply.com/"] 5).1.Nodup) := by
  exact ⟨by decide, by decide⟩

/-- C3 amended: provided the configured seed list contains no duplicate
entries, every URL is admitted to the work queue at most once per run; in
particular any URL discovered a second time is never enqueued again (in
this code nothing after the seeds is ever enqueued, since `normalize_url`
always returns `none`). -/
theorem C3_enqueued_at_most_once (env : String → Page)
    (allowed : List String) (limit fuel : Nat) (seeds : List String)
    (u : String) (h : seeds.Nodup) :
    (runCrawl env allowed limit seeds fuel).1.count u ≤ 1 := by
  rw [runCrawl_trace]
  exact List.nodup_iff_count_le_one.mp h u

/-- Witness for C3: a concrete duplicate-free run admits the seed once. -/
theorem C3_enqueued_at_most_once_witness :
    (["https://yzy-sply.com/"] : List String).Nodup
  ∧ (runCrawl (fun _ => emptyPage) ["yzy-sply.com"] 3
      ["https://yzy-sply.com/"] 5).1.count "https://yzy-sply.com/" ≤ 1 :=
  ⟨by decide,
   C3_enqueued_at_most_once (fun _ => emptyPage) ["yzy-sply.com"] 3 5
     ["https://yzy-sply.com/"] "https://yzy-sply.com/" (by decide)⟩

/-- C4: the depth map is first-write-wins for every URL — seeds are
recorded at depth 0 before crawling; a depth recorded after the seeding
phase still stands, unchanged, in the final state of the run; and any
depth `find_links` assigns to a URL either leaves the recorded value
unchanged or equals the parent's depth plus one. -/
theorem C4_depth_map_first_write_wins (env : String → Page)
    (allowed : List String) (limit fuel : Nat) (seeds : List String)
    (s u v base : String) (hrefs : List String) (dd : Nat)
    (stf : CrawlState) (d : Nat)
    (hs : s ∈ seeds)
    (hu : dictGet (start_requests seeds initCrawlState).1.depth_map u
        = some d) :
    dictGet (start_requests seeds initCrawlState).1.depth_map s = some 0
  ∧ dictGet (runCrawl env allowed limit seeds fuel).2.depth_map u = some d
  ∧ (dictGet (find_links allowed base hrefs dd stf).1.depth_map v
        = dictGet stf.depth_map v
      ∨ dictGet (find_links allowed base hrefs dd stf).1.depth_map v
        = some (dd + 1)) := by
  refine ⟨?_, ?_, ?_⟩
  · rw [start_requests_depth]; simp [hs]
  · rw [runCrawl_snd]; exact hu
  · left; rw [find_links_eq]

/-- Witness for C4: the default seed is recorded at depth 0 and keeps it. -/
theorem C4_depth_map_first_write_wins_witness :
    ("https://yzy-sply.com/" ∈ (["https://yzy-sply.com/"] : List String))
  ∧ dictGet (start_requests ["https://yzy-sply.com/"]
      initCrawlState).1.depth_map "https://yzy-sply.com/" = some 0
  ∧ (dictGet (start_requests ["https://yzy-sply.com/"]
        initCrawlState).1.depth_map "https://yzy-sply.com/" = some 0
    ∧ dictGet (runCrawl (fun _ => emptyPage) ["yzy-sply.com"] 3
        ["https://yzy-sply.com/"] 5).2.depth_map "https://yzy-sply.com/"
        = some 0
    ∧ (dictGet (find_links ["yzy-sply.com"] "https://yzy-sply.com/"
          ["/a"] 0 initCrawlState).1.depth_map "https://yzy-sply.com/x"
          = dictGet initCrawlState.depth_map "https://yzy-sply.com/x"
        ∨ dictGet (find_links ["yzy-sply.com"] "https://yzy-sply.com/"
            ["/a"] 0 initCrawlState).1.depth_map "https://yzy-sply.com/x"
          = some (0 + 1))) :=
  ⟨by decide, by decide,
   C4_depth_map_first_write_wins (fun _ => emptyPage) ["yzy-sply.com"] 3 5
     ["https://yzy-sply.com/"] "https://yzy-sply.com/"
     "https://yzy-sply.com/" "https://yzy-sply.com/x"
     "https://yzy-sply.com/" ["/a"] 0 initCrawlState 0
     (by decide) (by decide)⟩

/-- C5: a fetched page's HTML is saved exactly when its recorded depth
(default 0) is at most the configured maximum, and its outbound links are
extracted and followed exactly when that depth is strictly below the
maximum; hence a page at the maximum depth is saved but not expanded, and
a page beyond it is neither saved nor expanded. -/
theorem C5_depth_gates_save_and_expand (allowed : List String)
    (limit : Nat) (url : String) (page : Page) (st : CrawlState) :
    ((parse allowed limit url page st).savedHtml = true
      ↔ (dictGet st.depth_map url).getD 0 ≤ limit)
  ∧ ((parse allowed limit url page st).expanded = true
      ↔ (dictGet st.depth_map url).getD 0 < limit) := by
  rw [parse_eq]
  constructor <;> simp

/-- C10: a raw link whose resolved host is not in the allowed-domain set
is rejected by `normalize_url` (which in this code returns `none` for
every input) and is never enqueued by `find_links`, whatever its path. -/
theorem C10_disallowed_host_never_enqueued (allowed : List String)
    (base link : String) (hrefs : List String) (d : Nat) (st : CrawlState)
    (_h : ¬ allowed.contains (specResolvedHost base link) = true) :
    normalize_url allowed base link = none
  ∧ (find_links allowed base (link :: hrefs) d st).2 = [] := by
  exact ⟨rfl, by simp [find_links_eq]⟩

/-- Witness for C10 at the spec's Scenario D input. -/
theorem C10_disallowed_host_never_enqueued_witness :
    (¬ (["example.com"] : List String).contains
        (specResolvedHost "https://example.com/"
          "http://other-domain.com/page") = true)
  ∧ (normalize_url ["example.com"] "https://example.com/"
        "http://other-domain.com/page" = none
    ∧ (find_links ["example.com"] "https://example.com/"
        ["http://other-domain.com/page"] 0 initCrawlState).2 = []) :=
  ⟨by decide,
   C10_disallowed_host_never_enqueued ["example.com"]
     "https://example.com/" "http://other-domain.com/page" [] 0
     initCrawlState (by decide)⟩

/-- C6: for two asset responses with byte-identical bodies, at most one
copy is written: the first (from a fresh run state) records the content
hash and is written; the second is skipped with no write, leaving the
filesystem exactly as the first left it. -/
theorem C6_content_hash_dedup (r1 r2 : AssetResponse)
    (hbody : r1.body = r2.body) (_hurl : r1.url ≠ r2.url) :
    (save_asset r1 initCrawlState [] .ok).2.2.isSome = true
  ∧ (save_asset r2 (save_asset r1 initCrawlState [] .ok).1
      (save_asset r1 initCrawlState [] .ok).2.1 .ok).2.2 = none
  ∧ (save_asset r2 (save_asset r1 initCrawlState [] .ok).1
      (save_asset r1 initCrawlState [] .ok).2.1 .ok).2.1
      = (save_asset r1 initCrawlState [] .ok).2.1 := by
  have h2 : md5hex r2.body = md5hex r1.body := by rw [hbody]
  refine ⟨?_, ?_, ?_⟩ <;>
    simp [save_asset, h2, initCrawlState]

/-- Witness for C6 at the spec's Scenario B inputs. -/
theorem C6_content_hash_dedup_witness :
    ((⟨"https://example.com/style1.css", "text/css", [1, 2, 3], "css"⟩ :
        AssetResponse).body
      = (⟨"https://example.com/style1-mirror.css", "text/css", [1, 2, 3],
          "css"⟩ : AssetResponse).body)
  ∧ ((⟨"https://example.com/style1.css", "text/css", [1, 2, 3], "css"⟩ :
        AssetResponse).url
      ≠ (⟨"https://example.com/style1-mirror.css", "text/css", [1, 2, 3],
          "css"⟩ : AssetResponse).url)
  ∧ (save_asset ⟨"https://example.com/style1.css", "text/css", [1, 2, 3],
      "css"⟩ initCrawlState [] .ok).2.2.isSome = true
  ∧ (save_asset ⟨"https://example.com/style1-mirror.css", "text/css",
      [1, 2, 3], "css"⟩
      (save_asset ⟨"https://example.com/style1.css", "text/css", [1, 2, 3],
        "css"⟩ initCrawlState [] .ok).1
      (save_asset ⟨"https://example.com/style1.css", "text/css", [1, 2, 3],
        "css"⟩ initCrawlState [] .ok).2.1 .ok).2.2 = none :=
  ⟨rfl, by decide,
   (C6_content_hash_dedup
     ⟨"https://example.com/style1.css", "text/css", [1, 2, 3], "css"⟩
     ⟨"https://example.com/style1-mirror.css", "text/css", [1, 2, 3], "css"⟩
     rfl (by decide)).1,
   (C6_content_hash_dedup
     ⟨"https://example.com/style1.css", "text/css", [1, 2, 3], "css"⟩
     ⟨"https://example.com/style1-mirror.css", "text/css", [1, 2, 3], "css"⟩
     rfl (by decide)).2.1⟩

/-- C7 counterexample: the spec's Scenario C input — an extensionless image
URL `/img/logo` whose response declares `Content-Type: image/png` — is
stored at `example_com/images/logo`, not `example_com/images/logo.png`:
the MIME-derived extension is computed but only used in the hash-named
fallback filename, never appended to an existing basename. -/
theorem C7_extensionless_image_keeps_bare_basename :
    (save_asset ⟨"https://example.com/img/logo", "image/png", [7],
        "images"⟩ initCrawlState [] .ok).2.2
      = some "example_com/images/logo"
  ∧ some "example_com/images/logo"
      ≠ some "example_com/images/logo.png" := by
  exact ⟨by decide, by decide⟩

/-- C7 amended: the extension value is resolved exactly in the claimed
order (images from the declared MIME type with ".bin" fallback; otherwise
the URL-path suffix when present, else the category default), but it is
used in the stored filename only when the stripped URL path is empty: an
extensionless image URL with a nonempty path keeps its bare basename,
while an image fetched from an empty-path URL served as image/png is
stored as `<contentHash>.png`. -/
theorem C7_extension_resolution_order (assetType ct p : String)
    (b : List Nat) (h : assetType ≠ "images") :
    resolve_ext "images" ct p = (guess_extension ct).getD ".bin"
  ∧ resolve_ext assetType ct p =
      (if pathSuffix p ≠ "" then pathSuffix p
       else if assetType = "css" then ".css"
       else if assetType = "js" then ".js"
       else ".bin")
  ∧ (save_asset ⟨"https://example.com/img/logo", "image/png", b, "images"⟩
      initCrawlState [] .ok).2.2 = some "example_com/images/logo"
  ∧ (save_asset ⟨"https://example.com", "image/png", b, "images"⟩
      initCrawlState [] .ok).2.2
      = some ("example_com/images/" ++ (md5hex b ++ ".png")) := by
  refine ⟨by simp [resolve_ext], by simp [resolve_ext, h], rfl, rfl⟩

/-- Witness for C7 at a stylesheet whose URL path carries an extension. -/
theorem C7_extension_resolution_order_witness :
    (("css" : String) ≠ "images")
  ∧ resolve_ext "images" "text/css" "/styles/a.min.css"
      = (guess_extension "text/css").getD ".bin"
  ∧ resolve_ext "css" "text/css" "/styles/a.min.css" =
      (if pathSuffix "/styles/a.min.css" ≠ ""
       then pathSuffix "/styles/a.min.css"
       else if ("css" : String) = "css" then ".css"
       else if ("css" : String) = "js" then ".js"
       else ".bin")
  ∧ (save_asset ⟨"https://example.com/img/logo", "image/png", [7],
      "images"⟩ initCrawlState [] .ok).2.2
      = some "example_com/images/logo"
  ∧ (save_asset ⟨"https://example.com", "image/png", [7], "images"⟩
      initCrawlState [] .ok).2.2
      = some ("example_com/images/" ++ (md5hex [7] ++ ".png")) :=
  ⟨by decide,
   (C7_extension_resolution_order "css" "text/css" "/styles/a.min.css" [7]
     (by decide)).1,
   (C7_extension_resolution_order "css" "text/css" "/styles/a.min.css" [7]
     (by decide)).2.1,
   (C7_extension_resolution_order "css" "text/css" "/styles/a.min.css" [7]
     (by decide)).2.2.1,
   (C7_extension_resolution_order "css" "text/css" "/styles/a.min.css" [7]
     (by decide)).2.2.2⟩

/-- C8 counterexample: two asset responses with the same domain, the same
(empty) URL path and the same category `images` are written to different
filesystem paths, because the fallback filename is the content hash plus
extension — the path is not a function of (domain, URL path, category)
alone. -/
theorem C8_fallback_path_depends_on_content :
    (save_asset ⟨"https://example.com", "image/png", [0], "images"⟩
        initCrawlState [] .ok).2.2
      ≠ (save_asset ⟨"https://example.com", "image/png", [1], "images"⟩
        initCrawlState [] .ok).2.2 := by
  decide

/-- C8 amended: storage paths are deterministic — the page path depends
only on the URL's host and path (host with dots replaced by underscores,
then the stripped path, then `index.html`, or `<domain>/index.html` for an
empty path), and the asset path depends only on the URL's host and path,
the category, the body bytes and the declared content type; two asset
responses agreeing on all of these resolve to the same path even from
different URLs and filesystems. -/
theorem C8_paths_deterministic (u1 u2 : String) (r1 r2 : AssetResponse)
    (st : CrawlState) (fs1 fs2 : Filesystem)
    (hn : (urlsplit u1).netloc = (urlsplit u2).netloc)
    (hp : (urlsplit u1).path = (urlsplit u2).path)
    (han : (urlsplit r1.url).netloc = (urlsplit r2.url).netloc)
    (hap : (urlsplit r1.url).path = (urlsplit r2.url).path)
    (hat : r1.asset_type = r2.asset_type)
    (hb : r1.body = r2.body)
    (hct : contentTypeOf r1.contentTypeHeader
        = contentTypeOf r2.contentTypeHeader) :
    save_html_path u1 = save_html_path u2
  ∧ (save_asset r1 st fs1 .ok).2.2 = (save_asset r2 st fs2 .ok).2.2
  ∧ save_html_path "https://example.com/about" = "example_com/about/index.html"
  ∧ save_html_path "https://example.com/" = "example_com/index.html" := by
  refine ⟨?_, ?_, by decide, by decide⟩
  · unfold save_html_path get_domain_folder
    rw [hn, hp]
  · have hfn := assetFileName_congr r1 r2 han hap hat hb hct
    have hh : md5hex r1.body = md5hex r2.body := by rw [hb]
    simp only [save_asset_eq, hfn, hh]
    by_cases h : md5hex r2.body ∈ st.asset_hashes <;> simp [h]

/-- Witness for C8: distinct URLs (query and fragment variants) and
distinct filesystems agreeing on host, path, category, body and content
type resolve to the same paths. -/
theorem C8_paths_deterministic_witness :
    ((urlsplit "https://example.com/about?x=1").netloc
      = (urlsplit "https://example.com/about#sec").netloc)
  ∧ ((urlsplit "https://example.com/about?x=1").path
      = (urlsplit "https://example.com/about#sec").path)
  ∧ save_html_path "https://example.com/about?x=1"
      = save_html_path "https://example.com/about#sec"
  ∧ (save_asset ⟨"https://example.com/a.css", "text/css", [1], "css"⟩
      initCrawlState [] .ok).2.2
    = (save_asset ⟨"https://example.com/a.css?v=1",
        "text/css; charset=utf-8", [1], "css"⟩
      initCrawlState [("x", .text "y")] .ok).2.2 :=
  ⟨by decide, by decide,
   (C8_paths_deterministic "https://example.com/about?x=1"
     "https://example.com/about#sec"
     ⟨"https://example.com/a.css", "text/css", [1], "css"⟩
     ⟨"https://example.com/a.css?v=1", "text/css; charset=utf-8", [1],
       "css"⟩
     initCrawlState [] [("x", .text "y")]
     (by decide) (by decide) (by decide) (by decide) (by decide) rfl
     (by decide)).1,
   (C8_paths_deterministic "https://example.com/about?x=1"
     "https://example.com/about#sec"
     ⟨"https://example.com/a.css", "text/css", [1], "css"⟩
     ⟨"https://example.com/a.css?v=1", "text/css; charset=utf-8", [1],
       "css"⟩
     initCrawlState [] [("x", .text "y")]
     (by decide) (by decide) (by decide) (by decide) (by decide) rfl
     (by decide)).2.1⟩

/-- C9 counterexample: writes are not all-or-nothing — a `save_html` call
whose write fails after opening leaves a truncated (here empty) file at the
target path, destroying the previously written artifact there: the file is
opened in truncating write mode before the body is written. -/
theorem C9_failed_write_corrupts_previous_artifact :
    fsLookup (save_html ⟨"https://example.com/", "new content"⟩
        [("example_com/index.html", .text "old artifact")] (.failAfter 0))
      "example_com/index.html" = some (.text "")
  ∧ some (FileContent.text "") ≠ some (FileContent.text "old artifact")
  ∧ FileContent.text "" ≠ FileContent.text "new content" := by
  exact ⟨by decide, by decide, by decide⟩

/-- C9 amended: a failed write may leave a partial file and may corrupt
the previously written artifact at the same path (truncating open), but it
never touches any other path: every path other than the write's target is
unchanged by `save_html` and `save_asset` whatever the outcome, and a
successful write stores the complete content at the computed target. -/
theorem C9_writes_touch_only_target (resp : PageResponse) (fs : Filesystem)
    (o : WriteOutcome) (q : String) (r : AssetResponse) (st : CrawlState)
    (fs2 : Filesystem) (o2 : WriteOutcome) (q2 pw : String)
    (hq : q ≠ save_html_path resp.url)
    (hq2 : (save_asset r st fs2 o2).2.2 ≠ some q2)
    (hw : (save_asset r st fs2 .ok).2.2 = some pw) :
    fsLookup (save_html resp fs o) q = fsLookup fs q
  ∧ fsLookup (save_html resp fs .ok) (save_html_path resp.url)
      = some (.text resp.text)
  ∧ fsLookup (save_asset r st fs2 o2).2.1 q2 = fsLookup fs2 q2
  ∧ fsLookup (save_asset r st fs2 .ok).2.1 pw = some (.bytes r.body) := by
  refine ⟨?_, ?_, ?_, ?_⟩
  · cases o <;>
      simp only [save_html, fsWrite, truncateContent] <;>
      exact fsLookup_cons_ne _ _ _ _ (Ne.symm hq)
  · simp only [save_html, fsWrite]
    exact fsLookup_cons_self _ _ _
  · simp only [save_asset_eq] at hq2 ⊢
    by_cases hdup : md5hex r.body ∈ st.asset_hashes
    · simp [hdup]
    · simp [hdup] at hq2 ⊢
      cases o2 <;>
        simp only [fsWrite, truncateContent] <;>
        exact fsLookup_cons_ne _ _ _ _ hq2
  · simp only [save_asset_eq] at hw ⊢
    by_cases hdup : md5hex r.body ∈ st.asset_hashes
    · simp [hdup] at hw
    · simp [hdup] at hw ⊢
      rw [← hw]
      simp only [fsWrite]
      exact fsLookup_cons_self _ _ _

/-- Witness for C9: a page write to a fresh filesystem and a failed asset
write leave the unrelated path `zzz` unchanged; the successful asset write
stores the full body. -/
theorem C9_writes_touch_only_target_witness :
    (("zzz" : String) ≠ save_html_path "https://example.com/")
  ∧ ((save_asset ⟨"https://example.com/a.css", "text/css", [1], "css"⟩
      initCrawlState [] (.failAfter 0)).2.2 ≠ some "zzz")
  ∧ ((save_asset ⟨"https://example.com/a.css", "text/css", [1], "css"⟩
      initCrawlState [] .ok).2.2 = some "example_com/css/a.css")
  ∧ fsLookup (save_html ⟨"https://example.com/", "hi"⟩ [] .ok) "zzz"
      = fsLookup [] "zzz"
  ∧ fsLookup (save_asset ⟨"https://example.com/a.css", "text/css", [1],
      "css"⟩ initCrawlState [] .ok).2.1 "example_com/css/a.css"
      = some (.bytes [1]) :=
  ⟨by decide, by decide, by decide,
   (C9_writes_touch_only_target ⟨"https://example.com/", "hi"⟩ [] .ok "zzz"
     ⟨"https://example.com/a.css", "text/css", [1], "css"⟩ initCrawlState
     [] (.failAfter 0) "zzz" "example_com/css/a.css"
     (by decide) (by decide) (by decide)).1,
   (C9_writes_touch_only_target ⟨"https://example.com/", "hi"⟩ [] .ok "zzz"
     ⟨"https://example.com/a.css", "text/css", [1], "css"⟩ initCrawlState
     [] (.failAfter 0) "zzz" "example_com/css/a.css"
     (by decide) (by decide) (by decide)).2.2.2⟩
